import Mathlib

/-
Shallow embedding of the layout & style-resolution core of the
html.to.design-clone repository:

  src/core/parseCSS.js      (value parsers, style resolver)
  src/core/computeLayout.js (standalone box model, flex repositioner)
  src/core/toDesignTree.js  (tree assembler, document conversion pass)
  src/core/parseDOM.js      (element classification)

Modelling conventions, stated once here:

* JS floating-point numbers are modelled as `Option ℚ`: `some q` is a finite
  value, `none` is a non-finite one (NaN, or an infinity produced by dividing
  a nonzero value by zero).  Arithmetic propagates `none`.  The only code
  paths that test a number for truthiness receive values coming from the
  value parsers, which never produce an infinity, so treating `none` as
  falsy (like NaN) is faithful there.
* JS strings are Lean `String`s.  `undefined`/missing string inputs are
  modelled as `none : Option String`.
* JS `parseFloat` is modelled by `jsParseFloat` below, restricted to the
  sign/decimal syntax actually exercised by CSS values in this repository
  (no exponent or Infinity forms); a string with no parsable numeric
  front part yields `none` (NaN).
-/

/-- A JS number: `some q` is finite, `none` is NaN or an infinity. -/
abbrev JSNum := Option ℚ

def jadd : JSNum → JSNum → JSNum
  | some a, some b => some (a + b)
  | _, _ => none

def jsub : JSNum → JSNum → JSNum
  | some a, some b => some (a - b)
  | _, _ => none

def jmul : JSNum → JSNum → JSNum
  | some a, some b => some (a * b)
  | _, _ => none

/-- JS division; division by zero gives a non-finite value (NaN or ±∞). -/
def jdiv : JSNum → JSNum → JSNum
  | some a, some b => if b = 0 then none else some (a / b)
  | _, _ => none

/-- JS `Math.round` (round half up, i.e. `⌊x + 1/2⌋`). -/
def jround : JSNum → JSNum
  | some a => some ((⌊a + 1/2⌋ : ℤ) : ℚ)
  | none => none

/-- JS `Math.floor`. -/
def jfloor : JSNum → JSNum
  | some a => some ((⌊a⌋ : ℤ) : ℚ)
  | none => none

/-- JS `Math.ceil`. -/
def jceil : JSNum → JSNum
  | some a => some ((⌈a⌉ : ℤ) : ℚ)
  | none => none

/-- JS `Math.max` on two values (NaN-propagating, like the source's uses). -/
def jmax : JSNum → JSNum → JSNum
  | some a, some b => some (max a b)
  | _, _ => none

/-- JS truthiness of a number produced by the value parsers:
`0` and NaN are falsy. -/
def jsTruthy : JSNum → Bool
  | some a => decide (a ≠ 0)
  | none => false

/-- JS `a || b` on numbers from the value parsers. -/
def jsOr (a b : JSNum) : JSNum := if jsTruthy a then a else b

/-- JS `a || d` on an optional string (`undefined` and `""` are falsy). -/
def jsOrS (o : Option String) (d : String) : String :=
  match o with
  | some s => if s = "" then d else s
  | none => d

/-- JS truthiness of an optional string. -/
def truthyS : Option String → Bool
  | some s => decide (s ≠ "")
  | none => false

/- ---------- string helpers (JS string primitives) ---------- -/

def isWS (c : Char) : Bool :=
  c == ' ' || c == '\t' || c == '\n' || c == '\r' || c == '\x0c' || c == '\x0b'

def trimChars (cs : List Char) : List Char :=
  ((cs.dropWhile isWS).reverse.dropWhile isWS).reverse

/-- JS `String.prototype.trim`. -/
def strTrim (s : String) : String := ⟨trimChars s.data⟩

/-- JS `String.prototype.toLowerCase` (ASCII, as used on tag names). -/
def strToLower (s : String) : String := ⟨s.data.map Char.toLower⟩

/-- JS `String.prototype.endsWith`. -/
def strEndsWith (s suffix : String) : Bool := suffix.data.isSuffixOf s.data

def consHead (c : Char) : List (List Char) → List (List Char)
  | r :: rs => (c :: r) :: rs
  | [] => [[c]]

mutual
/-- Split on maximal whitespace runs, JS `split(/\s+/)` semantics
(leading/trailing separators produce empty pieces). -/
def splitWSChars : List Char → List (List Char)
  | [] => [[]]
  | c :: cs => if isWS c then [] :: splitWSRun cs else consHead c (splitWSChars cs)

/-- Inside a maximal whitespace run: skip the rest of the run. -/
def splitWSRun : List Char → List (List Char)
  | [] => [[]]
  | c :: cs => if isWS c then splitWSRun cs else consHead c (splitWSChars cs)
end

def splitWS (s : String) : List String := (splitWSChars s.data).map (fun cs => ⟨cs⟩)

/-- JS `String.prototype.split` on a single separator character. -/
def splitOnChar (sep : Char) : List Char → List (List Char)
  | [] => [[]]
  | c :: cs =>
    let rest := splitOnChar sep cs
    if c == sep then [] :: rest
    else
      match rest with
      | r :: rs => (c :: r) :: rs
      | [] => [[c]]

def strSplitOn (sep : Char) (s : String) : List String :=
  (splitOnChar sep s.data).map (fun cs => ⟨cs⟩)

/- ---------- a model of JS parseFloat ---------- -/

/-- Longest leading run of decimal digits, and the remainder. -/
def takeDigits : List Char → List Char × List Char
  | [] => ([], [])
  | c :: cs =>
    if c.isDigit then
      let p := takeDigits cs
      (c :: p.1, p.2)
    else ([], c :: cs)

def digitsToNat (ds : List Char) : Nat :=
  ds.foldl (fun acc c => 10 * acc + (c.toNat - 48)) 0

/-- Modelled JS `parseFloat`: skip leading whitespace, optional sign, then
digits with at most one decimal point; trailing characters are ignored.
`none` models NaN (no parsable numeric front part).  Exponent and Infinity
forms, never produced by this repository's CSS values, are not modelled. -/
def jsParseFloat (s : String) : JSNum :=
  let cs := s.data.dropWhile isWS
  let neg := cs.head? = some '-'
  let signed := neg ∨ cs.head? = some '+'
  let cs1 := if signed then cs.tail else cs
  let sign : ℚ := if neg then -1 else 1
  let ip := takeDigits cs1
  let fp : List Char := if ip.2.head? = some '.' then (takeDigits ip.2.tail).1 else []
  if ip.1 = [] ∧ fp = [] then none
  else some (sign * ((digitsToNat ip.1 : ℚ) + (digitsToNat fp : ℚ) / (10 : ℚ) ^ fp.length))

/- ---------- value parsers (src/core/parseCSS.js) ---------- -/

/-- Model of `parsePixelValue` from src/core/parseCSS.js.  The JS parameter can be
`undefined` (modelled `none`); the `typeof value === 'number'` branch is
unreachable from this repository's call sites (styles are strings) and is
not modelled. -/
def parsePixelValue (value : Option String) : JSNum :=
  match value with
  | none => some 0
  | some v =>
    if v = "" then some 0
    else
      let str := strTrim v
      if strEndsWith str "px" then jsParseFloat str
      else if strEndsWith str "em" then jmul (jsParseFloat str) (some 16)
      else if strEndsWith str "rem" then jmul (jsParseFloat str) (some 16)
      else if strEndsWith str "%" then some 0
      else
        match jsParseFloat str with
        | none => some 0
        | some n => some n

structure SpacingQuad where
  top : JSNum
  right : JSNum
  bottom : JSNum
  left : JSNum
deriving DecidableEq

def zeroQuad : SpacingQuad := ⟨some 0, some 0, some 0, some 0⟩

/-- Model of `parseSpacing` from src/core/parseCSS.js. -/
def parseSpacing (value : Option String) : SpacingQuad :=
  match value with
  | none => zeroQuad
  | some v =>
    if v = "" ∨ v = "auto" then zeroQuad
    else
      let parts := (splitWS v).map (fun t => parsePixelValue (some t))
      match parts with
      | [a] => ⟨a, a, a, a⟩
      | [a, b] => ⟨a, b, a, b⟩
      | [a, b, c] => ⟨a, b, c, b⟩
      | [a, b, c, d] => ⟨a, b, c, d⟩
      | _ => zeroQuad

structure BorderSpec where
  width : JSNum
  style : String
  color : String
  radius : JSNum
deriving DecidableEq

def defaultBorder : BorderSpec := ⟨some 0, "none", "transparent", some 0⟩

def borderStyleKeywords : List String := ["solid", "dashed", "dotted", "double", "none"]

/-- JS regex test for a token made only of decimal digits. -/
def isAllDigits (s : String) : Bool := !s.data.isEmpty && s.data.all Char.isDigit

/-- Model of `parseBorder` from src/core/parseCSS.js. -/
def parseBorder (value : Option String) : BorderSpec :=
  match value with
  | none => defaultBorder
  | some v =>
    if v = "" ∨ v = "none" then defaultBorder
    else
      (splitWS v).foldl
        (fun acc part =>
          if strEndsWith part "px" || isAllDigits part then
            { acc with width := parsePixelValue (some part) }
          else if borderStyleKeywords.contains part then
            { acc with style := part }
          else
            { acc with color := part })
        defaultBorder

/- ---------- style records (JS objects keyed by property name) ---------- -/

/-- A JS object used as a style record: ordered key/value pairs, lookups take
the most recent write. -/
abbrev StyleMap := List (String × String)

def getProp (m : StyleMap) (k : String) : Option String :=
  (m.find? (fun p => p.1 == k)).map (fun p => p.2)

def setProp (m : StyleMap) (k v : String) : StyleMap :=
  (k, v) :: m.filter (fun p => p.1 != k)

def assignAll (m : StyleMap) (kvs : List (String × String)) : StyleMap :=
  kvs.foldl (fun acc p => setProp acc p.1 p.2) m

/-- Model of `camelCase` from src/core/parseCSS.js: each dash followed by a lowercase
letter is replaced by the upper-cased letter (global regex replace). -/
def camelCaseChars : List Char → List Char
  | [] => []
  | [c] => [c]
  | c :: c2 :: rest =>
    if c = '-' then
      if 'a' ≤ c2 ∧ c2 ≤ 'z' then c2.toUpper :: camelCaseChars rest
      else c :: camelCaseChars (c2 :: rest)
    else c :: camelCaseChars (c2 :: rest)

def camelCase (s : String) : String := ⟨camelCaseChars s.data⟩

/-- Model of `parseInlineStyle` from src/core/parseCSS.js. -/
def parseInlineStyle (styleAttr : Option String) : StyleMap :=
  match styleAttr with
  | none => []
  | some sa =>
    if sa = "" then []
    else
      (strSplitOn ';' sa).foldl
        (fun styles declaration =>
          match (strSplitOn ':' declaration).map strTrim with
          | property :: v :: _ =>
            if property ≠ "" ∧ v ≠ "" then setProp styles (camelCase property) v
            else styles
          | _ => styles)
        []

/- ---------- DOM model (src/core/parseDOM.js collaborator) ---------- -/

/-- An immutable snapshot of a DOM element: tag name (as stored by the DOM,
possibly upper-case), the `style` attribute, the direct text-node contents in
child-node order, the child elements in document order, and the `id`,
`class`, `src` attributes. -/
inductive Elem : Type where
  | mk (tagName : String) (styleAttr : Option String) (textNodes : List String)
      (children : List Elem) (idAttr : Option String) (classList : List String)
      (srcAttr : Option String) : Elem

def Elem.tagName : Elem → String
  | .mk t _ _ _ _ _ _ => t

def Elem.styleAttr : Elem → Option String
  | .mk _ sa _ _ _ _ _ => sa

def Elem.textNodes : Elem → List String
  | .mk _ _ tx _ _ _ _ => tx

def Elem.children : Elem → List Elem
  | .mk _ _ _ ks _ _ _ => ks

def Elem.idAttr : Elem → Option String
  | .mk _ _ _ _ i _ _ => i

def Elem.classList : Elem → List String
  | .mk _ _ _ _ _ cl _ => cl

def Elem.srcAttr : Elem → Option String
  | .mk _ _ _ _ _ _ s => s

/-- A stylesheet rule: the DOM `matches(selector)` capability is modelled as a
Boolean predicate (exceptions and missing capability are `false`, as in
`matchesSelector`); the declaration block is an ordered property/value list
with kebab-case property names. -/
structure CSSRule where
  selMatches : Elem → Bool
  decls : List (String × String)

def baseDefaultStyles : StyleMap :=
  [("display", "block"), ("position", "static"), ("margin", "0"),
   ("padding", "0"), ("border", "none"), ("background", "transparent"),
   ("color", "inherit"), ("fontSize", "16px"), ("fontFamily", "inherit"),
   ("fontWeight", "normal"), ("lineHeight", "normal"), ("textAlign", "left"),
   ("width", "auto"), ("height", "auto")]

def inlineTags : List String := ["span", "a", "strong", "em", "b", "i", "label"]

def headingDefaults (tagName : String) : Option (List (String × String)) :=
  if tagName = "h1" then some [("fontSize", "32px"), ("fontWeight", "bold"), ("margin", "0.67em 0")]
  else if tagName = "h2" then some [("fontSize", "24px"), ("fontWeight", "bold"), ("margin", "0.83em 0")]
  else if tagName = "h3" then some [("fontSize", "18.72px"), ("fontWeight", "bold"), ("margin", "1em 0")]
  else if tagName = "h4" then some [("fontSize", "16px"), ("fontWeight", "bold"), ("margin", "1.33em 0")]
  else if tagName = "h5" then some [("fontSize", "13.28px"), ("fontWeight", "bold"), ("margin", "1.67em 0")]
  else if tagName = "h6" then some [("fontSize", "10.72px"), ("fontWeight", "bold"), ("margin", "2.33em 0")]
  else none

/-- Model of `getDefaultStyles` from src/core/parseCSS.js. -/
def getDefaultStyles (tagName : String) : StyleMap :=
  let d0 := baseDefaultStyles
  let d1 := if inlineTags.contains tagName then setProp d0 "display" "inline" else d0
  let d2 :=
    match headingDefaults tagName with
    | some hs => assignAll d1 hs
    | none => d1
  let d3 := if tagName = "p" then setProp d2 "margin" "1em 0" else d2
  if tagName = "body" then
    assignAll d3 [("margin", "8px"), ("background", "rgb(255, 255, 255)"), ("color", "rgb(0, 0, 0)")]
  else d3

/-- Model of `getComputedStyles` from src/core/parseCSS.js: built-in defaults, then
each matching rule's declarations in rule order (last match wins), then the
inline `style` attribute. -/
def getComputedStyles (element : Elem) (cssRules : List CSSRule) : StyleMap :=
  let computed := getDefaultStyles (strToLower element.tagName)
  let computed := cssRules.foldl
    (fun acc rule =>
      if rule.selMatches element then
        rule.decls.foldl
          (fun acc2 pv => if pv.2 ≠ "" then setProp acc2 (camelCase pv.1) pv.2 else acc2)
          acc
      else acc)
    computed
  assignAll computed (parseInlineStyle element.styleAttr)

def strJoin (ls : List String) : String := ⟨(ls.map String.data).flatten⟩

/-- Model of `getDirectTextContent` from src/core/toDesignTree.js: concatenation of the
direct text nodes, trimmed, `null` when empty. -/
def getDirectTextContent (element : Elem) : Option String :=
  let t := strTrim (strJoin element.textNodes)
  if t = "" then none else some t

/-- Model of `getElementType` from src/core/parseDOM.js. -/
def getElementType (tagName : String) : String :=
  if ["p", "span", "h1", "h2", "h3", "h4", "h5", "h6", "a", "label", "li"].contains tagName then "text"
  else if ["img", "picture"].contains tagName then "image"
  else if ["svg"].contains tagName then "svg"
  else "frame"

/- ---------- document conversion pass (src/core/toDesignTree.js) ---------- -/

structure Viewport where
  width : ℚ
  height : ℚ
deriving DecidableEq

/-- Model of `DEFAULT_VIEWPORT` from src/core/computeLayout.js. -/
def DEFAULT_VIEWPORT : Viewport := ⟨1200, 800⟩

structure Layout where
  x : JSNum
  y : JSNum
  w : JSNum
  h : JSNum
deriving DecidableEq

/-- Model of `estimateElementHeight` from src/core/toDesignTree.js. -/
def estimateElementHeight (element : Elem) (styles : StyleMap) : JSNum :=
  let padding := parseSpacing (getProp styles "padding")
  let lineHeight :=
    jsOr (parsePixelValue (getProp styles "lineHeight"))
      (jsOr (jmul (parsePixelValue (getProp styles "fontSize")) (some (7/5))) (some 22))
  let contentHeight0 := lineHeight
  let contentHeight1 :=
    match getDirectTextContent element with
    | none => contentHeight0
    | some text =>
      let fontSize := jsOr (parsePixelValue (getProp styles "fontSize")) (some 16)
      let charWidth := jmul fontSize (some (1/2))
      let containerWidth := jsOr (parsePixelValue (getProp styles "width")) (some 1000)
      let charsPerLine := jfloor (jdiv containerWidth charWidth)
      let lines := jmax (some 1) (jceil (jdiv (some (text.length : ℚ)) charsPerLine))
      jmul lines lineHeight
  let contentHeight2 :=
    if element.children.length > 0 then
      jmax contentHeight1 (jmul (some (element.children.length : ℚ)) lineHeight)
    else contentHeight1
  jadd contentHeight2 (jadd padding.top padding.bottom)

/-- Model of `computeNodeLayout` from src/core/toDesignTree.js.  (The source also
parses `styles.padding` and `styles.border` here but never uses them.) -/
def computeNodeLayout (element : Elem) (styles : StyleMap) (viewport : Viewport)
    (offsetX offsetY : JSNum) : Layout :=
  let margin := parseSpacing (getProp styles "margin")
  let width0 := parsePixelValue (getProp styles "width")
  let width1 :=
    if ¬ jsTruthy width0 ∨ getProp styles "width" = some "auto" then
      jsub (jsub (some viewport.width) margin.left) margin.right
    else width0
  let width2 :=
    match getProp styles "width" with
    | some s =>
      if strEndsWith s "%" then jmul (jdiv (jsParseFloat s) (some 100)) (some viewport.width)
      else width1
    | none => width1
  let height0 := parsePixelValue (getProp styles "height")
  let height1 :=
    if ¬ jsTruthy height0 ∨ getProp styles "height" = some "auto" then
      estimateElementHeight element styles
    else height0
  { x := jround (jadd offsetX margin.left),
    y := jround (jadd offsetY margin.top),
    w := jround width2,
    h := jround height1 }

/-- The `border` entry of a style output object: the full `parseBorder` record
when the parsed width is positive, and/or a `radius` entry when a
`border-radius` value is present (the source creates an empty object for a
radius with zero border width). -/
structure BorderOut where
  spec : Option BorderSpec
  radius : Option JSNum
deriving DecidableEq

/-- The style object emitted on a design node (absent JS keys are `none`). -/
structure StyleOut where
  background : Option String
  color : Option String
  fontSize : Option String
  fontFamily : Option String
  fontWeight : Option String
  textAlign : Option String
  padding : Option SpacingQuad
  margin : Option SpacingQuad
  border : Option BorderOut
  display : Option String
  flexDirection : Option String
  justifyContent : Option String
  alignItems : Option String
  gap : Option JSNum
  opacity : Option JSNum
deriving DecidableEq

/-- Model of `buildStyleObject` from src/core/toDesignTree.js. -/
def buildStyleObject (computed : StyleMap) : StyleOut :=
  let bg := getProp computed "background"
  let bgc := getProp computed "backgroundColor"
  let background0 := if truthyS bg ∧ bg ≠ some "transparent" then bg else none
  let background := if truthyS bgc ∧ bgc ≠ some "transparent" then bgc else background0
  let color :=
    let c := getProp computed "color"
    if truthyS c ∧ c ≠ some "inherit" then c else none
  let fontSize :=
    let f := getProp computed "fontSize"
    if truthyS f then f else none
  let fontFamily :=
    let f := getProp computed "fontFamily"
    if truthyS f ∧ f ≠ some "inherit" then f else none
  let fontWeight :=
    let f := getProp computed "fontWeight"
    if truthyS f ∧ f ≠ some "normal" then f else none
  let textAlign :=
    let f := getProp computed "textAlign"
    if truthyS f ∧ f ≠ some "left" then f else none
  let paddingQ := parseSpacing (getProp computed "padding")
  let padding :=
    if jsTruthy paddingQ.top ∨ jsTruthy paddingQ.right ∨ jsTruthy paddingQ.bottom ∨ jsTruthy paddingQ.left
    then some paddingQ else none
  let marginQ := parseSpacing (getProp computed "margin")
  let margin :=
    if jsTruthy marginQ.top ∨ jsTruthy marginQ.right ∨ jsTruthy marginQ.bottom ∨ jsTruthy marginQ.left
    then some marginQ else none
  let borderSpec0 := parseBorder (getProp computed "border")
  let borderSpec : Option BorderSpec :=
    match borderSpec0.width with
    | some w => if 0 < w then some borderSpec0 else none
    | none => none
  let borderRadius : Option JSNum :=
    let r := getProp computed "borderRadius"
    if truthyS r then some (parsePixelValue r) else none
  let border : Option BorderOut :=
    if borderSpec.isSome ∨ borderRadius.isSome then some ⟨borderSpec, borderRadius⟩ else none
  let display :=
    let d := getProp computed "display"
    if truthyS d ∧ d ≠ some "block" then d else none
  let flexDirection :=
    let f := getProp computed "flexDirection"
    if truthyS f then f else none
  let justifyContent :=
    let f := getProp computed "justifyContent"
    if truthyS f then f else none
  let alignItems :=
    let f := getProp computed "alignItems"
    if truthyS f then f else none
  let gap :=
    let g := getProp computed "gap"
    if truthyS g then some (parsePixelValue g) else none
  let opacity :=
    match getProp computed "opacity" with
    | some ov => if ov ≠ "" ∧ ov ≠ "1" then some (jsParseFloat ov) else none
    | none => none
  ⟨background, color, fontSize, fontFamily, fontWeight, textAlign,
   padding, margin, border, display, flexDirection, justifyContent,
   alignItems, gap, opacity⟩

/-- A design node (`type`, `name`, `layout`, `style`, optional `text`, `src`,
`id` and `classes` metadata, children; an absent `children` key is the empty
list). -/
inductive DesignNode : Type where
  | mk (type : String) (name : String) (layout : Layout) (style : StyleOut)
      (text : Option String) (src : Option String) (idAttr : Option String)
      (classes : List String) (children : List DesignNode) : DesignNode

def DesignNode.type : DesignNode → String
  | .mk t _ _ _ _ _ _ _ _ => t

def DesignNode.name : DesignNode → String
  | .mk _ n _ _ _ _ _ _ _ => n

def DesignNode.layout : DesignNode → Layout
  | .mk _ _ l _ _ _ _ _ _ => l

def DesignNode.style : DesignNode → StyleOut
  | .mk _ _ _ s _ _ _ _ _ => s

def DesignNode.text : DesignNode → Option String
  | .mk _ _ _ _ t _ _ _ _ => t

def DesignNode.children : DesignNode → List DesignNode
  | .mk _ _ _ _ _ _ _ _ ks => ks

def skipTags : List String := ["script", "style", "noscript", "meta", "link", "head"]

/-- The tag name used by `elementToDesignNode`:
`element.tagName?.toLowerCase() || 'div'`. -/
def effectiveTag (element : Elem) : String :=
  let l := strToLower element.tagName
  if l = "" then "div" else l

mutual
/-- Model of `elementToDesignNode` from src/core/toDesignTree.js. -/
def elementToDesignNode (element : Elem) (cssRules : List CSSRule)
    (viewport : Viewport) (offsetX offsetY : JSNum) : Option DesignNode :=
  match element with
  | .mk rawTag styleAttr textNodes kids idAttr classList srcAttr =>
    let tagName := effectiveTag (.mk rawTag styleAttr textNodes kids idAttr classList srcAttr)
    if skipTags.contains tagName then none
    else
      let computedStyles :=
        getComputedStyles (.mk rawTag styleAttr textNodes kids idAttr classList srcAttr) cssRules
      if getProp computedStyles "display" = some "none" ∨
         getProp computedStyles "visibility" = some "hidden" then none
      else
        let type := getElementType tagName
        let layout :=
          computeNodeLayout (.mk rawTag styleAttr textNodes kids idAttr classList srcAttr)
            computedStyles viewport offsetX offsetY
        let style := buildStyleObject computedStyles
        let text :=
          if type = "text" then
            getDirectTextContent (.mk rawTag styleAttr textNodes kids idAttr classList srcAttr)
          else none
        let src := if type = "image" ∧ truthyS srcAttr then srcAttr else none
        let idOut := if truthyS idAttr then idAttr else none
        let classes := if classList.length > 0 then classList else []
        let children := processChildren kids cssRules viewport layout.x layout.y
        some (.mk type tagName layout style text src idOut classes children)

/-- Model of `processChildren` from src/core/toDesignTree.js: children are laid out at
the parent's `x`, with a running vertical cursor starting at the parent's `y`;
a `null` child is skipped without advancing the cursor. -/
def processChildren (kids : List Elem) (cssRules : List CSSRule)
    (viewport : Viewport) (parentX currentY : JSNum) : List DesignNode :=
  match kids with
  | [] => []
  | child :: rest =>
    match elementToDesignNode child cssRules viewport parentX currentY with
    | none => processChildren rest cssRules viewport parentX currentY
    | some node =>
      node :: processChildren rest cssRules viewport parentX (jadd node.layout.y node.layout.h)
end

def emptyStyleOut : StyleOut :=
  ⟨none, none, none, none, none, none, none, none, none, none, none, none, none, none, none⟩

/-- Model of `createEmptyDesignTree` from src/core/toDesignTree.js. -/
def createEmptyDesignTree (viewport : Viewport) : DesignNode :=
  .mk "frame" "body"
    ⟨some 0, some 0, some viewport.width, some viewport.height⟩
    { emptyStyleOut with background := some "rgb(255, 255, 255)" }
    none none none [] []

/-- A parsed document, as `documentToDesignTree` consumes it: the `body`
element if any, and the rules collected from its style tags
(`collectStylesheets`/cssom are external collaborators; their output is
modelled as the document's rule list). -/
structure DocumentModel where
  body : Option Elem
  cssRules : List CSSRule

/-- Model of `documentToDesignTree` from src/core/toDesignTree.js (`none` models the
JS `null` return). -/
def documentToDesignTree (document : DocumentModel) (viewport : Viewport) : Option DesignNode :=
  match document.body with
  | none => some (createEmptyDesignTree viewport)
  | some body => elementToDesignNode body document.cssRules viewport (some 0) (some 0)

/-- First-seen insertion, the JS `Set.add` / `Array.from` combination. -/
def insertColor (acc : List String) (c : String) : List String :=
  if acc.contains c then acc else acc ++ [c]

/-- One node's contribution in `extractColorPalette`'s `traverse`: add the
truthy `style.background`, `style.color` and `style.border.color` values to
the insertion-ordered set. -/
def addNodeColors (style : StyleOut) (acc : List String) : List String :=
  let acc1 := if truthyS style.background then insertColor acc (style.background.getD "") else acc
  let acc2 := if truthyS style.color then insertColor acc1 (style.color.getD "") else acc1
  match style.border with
  | some b =>
    match b.spec with
    | some sp => if sp.color ≠ "" then insertColor acc2 sp.color else acc2
    | none => acc2
  | none => acc2

mutual
/-- The `traverse` closure of `extractColorPalette` from
src/core/toDesignTree.js, with the insertion-ordered set as an accumulator. -/
def collectColors (node : DesignNode) (acc : List String) : List String :=
  match node with
  | .mk _ _ _ style _ _ _ _ kids => collectColorsList kids (addNodeColors style acc)

def collectColorsList (kids : List DesignNode) (acc : List String) : List String :=
  match kids with
  | [] => acc
  | k :: rest => collectColorsList rest (collectColors k acc)
end

/-- Model of `extractColorPalette` from src/core/toDesignTree.js. -/
def extractColorPalette (tree : DesignNode) : List String :=
  collectColors tree []

/- ---------- standalone layout engine (src/core/computeLayout.js) ---------- -/

/-- Model of `computeWidth` from src/core/computeLayout.js. -/
def computeWidth (styles : StyleMap) (parentWidth : ℚ) : JSNum :=
  let width := getProp styles "width"
  if ¬ truthyS width ∨ width = some "auto" then
    if getProp styles "display" = some "block" ∨ ¬ truthyS (getProp styles "display") then
      let margin := parseSpacing (getProp styles "margin")
      jsub (jsub (some parentWidth) margin.left) margin.right
    else some 100
  else
    match width with
    | some s =>
      if strEndsWith s "%" then jmul (jdiv (jsParseFloat s) (some 100)) (some parentWidth)
      else parsePixelValue width
    | none => parsePixelValue width

/-- A flex container as `computeFlexLayout` consumes it: computed styles and
an already-computed layout. -/
structure FlexContainer where
  computedStyles : StyleMap
  layout : Layout

/-- Model of `computeCrossAxisPosition` from src/core/computeLayout.js. -/
def computeCrossAxisPosition (childLayout : Layout) (containerLayout : Layout)
    (alignItems : String) (padding : SpacingQuad) (availableSize : JSNum)
    (isColumn : Bool) : JSNum :=
  let childSize := if isColumn then childLayout.w else childLayout.h
  let containerStart :=
    if isColumn then jadd containerLayout.x padding.left
    else jadd containerLayout.y padding.top
  if alignItems = "center" then
    jadd containerStart (jdiv (jsub availableSize childSize) (some 2))
  else if alignItems = "flex-end" then
    jsub (jadd containerStart availableSize) childSize
  else containerStart

/-- The constants `computeFlexLayout` derives before its positioning loop, in
source order. -/
structure FlexParams where
  flexDirection : String
  justifyContent : String
  alignItems : String
  gap : JSNum
  isRow : Bool
  isReverse : Bool
  padding : SpacingQuad
  availableWidth : JSNum
  availableHeight : JSNum
  totalChildSize : JSNum
  availableSpace : JSNum
  currentPos0 : JSNum
  spaceBetween : JSNum

/-- The local constants of `computeFlexLayout` (src/core/computeLayout.js),
computed exactly as in the source. -/
def flexParams (container : FlexContainer) (children : List Layout) : FlexParams :=
  let styles := container.computedStyles
  let containerLayout := container.layout
  let flexDirection := jsOrS (getProp styles "flexDirection") "row"
  let justifyContent := jsOrS (getProp styles "justifyContent") "flex-start"
  let alignItems := jsOrS (getProp styles "alignItems") "stretch"
  let gap := jsOr (parsePixelValue (getProp styles "gap")) (some 0)
  let isRow := flexDirection == "row" || flexDirection == "row-reverse"
  let isReverse := flexDirection == "row-reverse" || flexDirection == "column-reverse"
  let padding := parseSpacing (getProp styles "padding")
  let availableWidth := jsub (jsub containerLayout.w padding.left) padding.right
  let availableHeight := jsub (jsub containerLayout.h padding.top) padding.bottom
  let totalChildSize0 :=
    children.foldl (fun acc c => jadd acc (if isRow then c.w else c.h)) (some 0)
  let totalChildSize := jadd totalChildSize0 (jmul gap (some ((children.length : ℚ) - 1)))
  let availableSpace := jsub (if isRow then availableWidth else availableHeight) totalChildSize
  let n := children.length
  let currentPos0 :=
    if justifyContent = "center" then jdiv availableSpace (some 2)
    else if justifyContent = "flex-end" then availableSpace
    else if justifyContent = "space-between" then some 0
    else if justifyContent = "space-around" then jdiv availableSpace (some ((n : ℚ) * 2))
    else if justifyContent = "space-evenly" then jdiv availableSpace (some ((n : ℚ) + 1))
    else some 0
  let spaceBetween :=
    if justifyContent = "space-between" ∧ 1 < n then jdiv availableSpace (some ((n : ℚ) - 1))
    else some 0
  ⟨flexDirection, justifyContent, alignItems, gap, isRow, isReverse, padding,
   availableWidth, availableHeight, totalChildSize, availableSpace, currentPos0, spaceBetween⟩

/-- The positioning loop of `computeFlexLayout`, before the final `-reverse`
array reversal. -/
def flexPositionLoop (p : FlexParams) (containerLayout : Layout) :
    List Layout → JSNum → List Layout
  | [], _ => []
  | child :: rest, currentPos =>
    if p.isRow then
      let cl : Layout :=
        { child with
          x := jadd (jadd containerLayout.x p.padding.left) currentPos,
          y := computeCrossAxisPosition child containerLayout p.alignItems p.padding
                p.availableHeight false }
      cl :: flexPositionLoop p containerLayout rest
        (jadd (jadd (jadd currentPos cl.w) p.gap) p.spaceBetween)
    else
      let cl : Layout :=
        { child with
          x := computeCrossAxisPosition child containerLayout p.alignItems p.padding
                p.availableWidth true,
          y := jadd (jadd containerLayout.y p.padding.top) currentPos }
      cl :: flexPositionLoop p containerLayout rest
        (jadd (jadd (jadd currentPos cl.h) p.gap) p.spaceBetween)

/-- Model of `computeFlexLayout` from src/core/computeLayout.js, acting on the
children's layouts. -/
def computeFlexLayout (container : FlexContainer) (children : List Layout) : List Layout :=
  let p := flexParams container children
  let positioned := flexPositionLoop p container.layout children p.currentPos0
  if p.isReverse then positioned.reverse else positioned

/- ---------- specification-side definitions (for refinement claims) ---------- -/

/-- Spec side, §4.3: width resolution in the spec's priority order — explicit
pixel/unit width as parsed; percentage against `parentContentWidth`;
`auto`/absent on a block-level element → parent content width minus
horizontal margins; `auto`/absent on an inline-level element → the fixed
100px fallback. -/
def specWidth (styles : StyleMap) (parentContentWidth : ℚ) : JSNum :=
  let margin := parseSpacing (getProp styles "margin")
  let blockFallback :=
    if getProp styles "display" = some "block" ∨ ¬ truthyS (getProp styles "display") then
      jsub (jsub (some parentContentWidth) margin.left) margin.right
    else some 100
  match getProp styles "width" with
  | none => blockFallback
  | some s =>
    if s = "" ∨ s = "auto" then blockFallback
    else if strEndsWith s "%" then
      jmul (jdiv (jsParseFloat s) (some 100)) (some parentContentWidth)
    else parsePixelValue (some s)

/-- Spec side, §4.4 (amended): the document conversion pass's estimated height
for an element with direct text content `text`:
`lineHeight` = explicit line-height in pixels when that parses to a nonzero
value, else `fontSize × 1.4` when nonzero, else 22;
`charsPerLine = floor(containerWidth / (fontSize × 0.5))` with the element's
own parsed width (fallback 1000) as container width;
`lines = max(1, ceil(textLength / charsPerLine))`;
the content height is `lines × lineHeight`, maxed with
`childCount × lineHeight` when the element has child elements; top and
bottom padding are added at the end. -/
def specTextHeight (element : Elem) (styles : StyleMap) (text : String) : JSNum :=
  let lineHeight :=
    jsOr (parsePixelValue (getProp styles "lineHeight"))
      (jsOr (jmul (parsePixelValue (getProp styles "fontSize")) (some (7/5))) (some 22))
  let fontSize := jsOr (parsePixelValue (getProp styles "fontSize")) (some 16)
  let containerWidth := jsOr (parsePixelValue (getProp styles "width")) (some 1000)
  let charsPerLine := jfloor (jdiv containerWidth (jmul fontSize (some (1/2))))
  let lines := jmax (some 1) (jceil (jdiv (some (text.length : ℚ)) charsPerLine))
  let textHeight := jmul lines lineHeight
  let contentHeight :=
    if element.children.length > 0 then
      jmax textHeight (jmul (some (element.children.length : ℚ)) lineHeight)
    else textHeight
  let padding := parseSpacing (getProp styles "padding")
  jadd contentHeight (jadd padding.top padding.bottom)

/-- Spec side, §4.7: the starting main-axis offset per `justify-content`. -/
def specJustifyOffset (justifyContent : String) (availableSpace : ℚ) (n : ℕ) : ℚ :=
  if justifyContent = "center" then availableSpace / 2
  else if justifyContent = "flex-end" then availableSpace
  else if justifyContent = "space-between" then 0
  else if justifyContent = "space-around" then availableSpace / (2 * n)
  else if justifyContent = "space-evenly" then availableSpace / (n + 1)
  else 0

def nodeOwnColors (st : StyleOut) : List String :=
  (if truthyS st.background then [st.background.getD ""] else []) ++
  (if truthyS st.color then [st.color.getD ""] else []) ++
  (match st.border with
   | some b =>
     match b.spec with
     | some sp => if sp.color ≠ "" then [sp.color] else []
     | none => []
   | none => [])

mutual
/-- Spec side, §6: the color strings found in a tree's `style.background`,
`style.color` and `style.border.color` fields, pre-order, with duplicates. -/
def specTreeColors (node : DesignNode) : List String :=
  match node with
  | .mk _ _ _ style _ _ _ _ kids => nodeOwnColors style ++ specTreeColorsList kids

def specTreeColorsList (kids : List DesignNode) : List String :=
  match kids with
  | [] => []
  | k :: rest => specTreeColors k ++ specTreeColorsList rest
end

/-- First-seen set union over lists, the Set-semantics union of repeated
extractor runs. -/
def unionFS (a b : List String) : List String := b.foldl insertColor a

/-- Vertical separation of two design nodes: the first ends at or above where
the second starts. -/
def VertSep (a b : DesignNode) : Prop :=
  ∃ ya ha yb : ℚ,
    a.layout.y = some ya ∧ a.layout.h = some ha ∧ b.layout.y = some yb ∧ ya + ha ≤ yb

/- ---------- helper lemmas ---------- -/

theorem computeNodeLayout_x_eq (element : Elem) (styles : StyleMap) (vp : Viewport)
    (ox oy : JSNum) :
    (computeNodeLayout element styles vp ox oy).x
      = jround (jadd ox (parseSpacing (getProp styles "margin")).left) := rfl

theorem computeNodeLayout_y_eq (element : Elem) (styles : StyleMap) (vp : Viewport)
    (ox oy : JSNum) :
    (computeNodeLayout element styles vp ox oy).y
      = jround (jadd oy (parseSpacing (getProp styles "margin")).top) := rfl

theorem computeNodeLayout_w_indep (element : Elem) (styles : StyleMap) (vp : Viewport)
    (ox oy ox' oy' : JSNum) :
    (computeNodeLayout element styles vp ox oy).w
      = (computeNodeLayout element styles vp ox' oy').w := rfl

theorem computeNodeLayout_h_indep (element : Elem) (styles : StyleMap) (vp : Viewport)
    (ox oy ox' oy' : JSNum) :
    (computeNodeLayout element styles vp ox oy).h
      = (computeNodeLayout element styles vp ox' oy').h := rfl

theorem jround_is_int (v : JSNum) : v = none → jround v = none := by
  intro h; subst h; rfl

theorem jround_eq_int (q : ℚ) : ∃ k : ℤ, jround (some q) = some ((k : ℤ) : ℚ) :=
  ⟨⌊q + 1/2⌋, rfl⟩

theorem jround_int_add_nonneg (z : ℤ) (q : ℚ) (hq : 0 ≤ q) :
    ∃ w : ℤ, jround (some ((z : ℚ) + q)) = some ((w : ℚ)) ∧ z ≤ w := by
  refine ⟨⌊(z : ℚ) + q + 1/2⌋, rfl, ?_⟩
  rw [Int.le_floor]
  linarith

theorem mem_insertColor (acc : List String) (d c : String) :
    c ∈ insertColor acc d ↔ c ∈ acc ∨ c = d := by
  unfold insertColor
  by_cases h : d ∈ acc
  · rw [if_pos (List.elem_iff.mpr h)]
    constructor
    · exact Or.inl
    · rintro (hc | rfl)
      · exact hc
      · exact h
  · rw [if_neg (fun hb => h (List.elem_iff.mp hb))]
    simp only [List.mem_append, List.mem_singleton]

theorem nodup_insertColor (acc : List String) (d : String) (h : acc.Nodup) :
    (insertColor acc d).Nodup := by
  unfold insertColor
  by_cases hc : d ∈ acc
  · rw [if_pos (List.elem_iff.mpr hc)]
    exact h
  · rw [if_neg (fun hb => hc (List.elem_iff.mp hb))]
    refine List.Nodup.append h (List.nodup_singleton d) ?_
    intro a ha hb
    simp only [List.mem_singleton] at hb
    subst hb
    exact hc ha

theorem insertColor_of_mem {acc : List String} {d : String} (h : d ∈ acc) :
    insertColor acc d = acc := by
  unfold insertColor
  exact if_pos (List.elem_iff.mpr h)

theorem mem_addNodeColors (style : StyleOut) (acc : List String) (c : String) :
    c ∈ addNodeColors style acc ↔ c ∈ acc ∨ c ∈ nodeOwnColors style := by
  unfold addNodeColors nodeOwnColors
  cases hb : style.border with
  | none =>
    by_cases h1 : truthyS style.background <;> by_cases h2 : truthyS style.color <;>
      simp [hb, h1, h2, mem_insertColor] <;> tauto
  | some b =>
    cases hs : b.spec with
    | none =>
      by_cases h1 : truthyS style.background <;> by_cases h2 : truthyS style.color <;>
        simp [hb, hs, h1, h2, mem_insertColor] <;> tauto
    | some sp =>
      by_cases h1 : truthyS style.background <;> by_cases h2 : truthyS style.color <;>
        by_cases h3 : sp.color = "" <;>
        simp [hb, hs, h1, h2, h3, mem_insertColor] <;> tauto

theorem nodup_addNodeColors (style : StyleOut) (acc : List String) (h : acc.Nodup) :
    (addNodeColors style acc).Nodup := by
  unfold addNodeColors
  cases hb : style.border with
  | none =>
    by_cases h1 : truthyS style.background <;> by_cases h2 : truthyS style.color <;>
      simp only [hb, h1, h2, if_true, if_false, Bool.false_eq_true] <;>
      solve_by_elim [nodup_insertColor]
  | some b =>
    cases hs : b.spec with
    | none =>
      by_cases h1 : truthyS style.background <;> by_cases h2 : truthyS style.color <;>
        simp only [hb, hs, h1, h2, if_true, if_false, Bool.false_eq_true] <;>
        solve_by_elim [nodup_insertColor]
    | some sp =>
      by_cases h1 : truthyS style.background <;> by_cases h2 : truthyS style.color <;>
        by_cases h3 : sp.color = "" <;>
        simp only [hb, hs, h1, h2, h3, if_true, if_false, Bool.false_eq_true, ite_not,
          ne_eq, not_false_eq_true, not_true_eq_false] <;>
        solve_by_elim [nodup_insertColor]

mutual
theorem mem_collectColors (node : DesignNode) (acc : List String) (c : String) :
    c ∈ collectColors node acc ↔ c ∈ acc ∨ c ∈ specTreeColors node := by
  match node with
  | .mk t n l style tx src ida cls kids =>
    rw [collectColors, specTreeColors, mem_collectColorsList kids _ c]
    rw [mem_addNodeColors, List.mem_append]
    tauto

theorem mem_collectColorsList (kids : List DesignNode) (acc : List String) (c : String) :
    c ∈ collectColorsList kids acc ↔ c ∈ acc ∨ c ∈ specTreeColorsList kids := by
  match kids with
  | [] =>
    rw [collectColorsList, specTreeColorsList]
    simp
  | k :: rest =>
    rw [collectColorsList, specTreeColorsList, mem_collectColorsList rest _ c]
    rw [mem_collectColors k acc c, List.mem_append]
    tauto
end

mutual
theorem nodup_collectColors (node : DesignNode) (acc : List String) (h : acc.Nodup) :
    (collectColors node acc).Nodup := by
  match node with
  | .mk t n l style tx src ida cls kids =>
    rw [collectColors]
    exact nodup_collectColorsList kids _ (nodup_addNodeColors style acc h)

theorem nodup_collectColorsList (kids : List DesignNode) (acc : List String) (h : acc.Nodup) :
    (collectColorsList kids acc).Nodup := by
  match kids with
  | [] => rw [collectColorsList]; exact h
  | k :: rest =>
    rw [collectColorsList]
    exact nodup_collectColorsList rest _ (nodup_collectColors k acc h)
end

theorem unionFS_self_of_subset (a b : List String) (h : ∀ x ∈ b, x ∈ a) :
    unionFS a b = a := by
  induction b generalizing a with
  | nil => rfl
  | cons x b' ih =>
    unfold unionFS at *
    rw [List.foldl_cons, insertColor_of_mem (h x (List.mem_cons_self x b'))]
    exact ih a (fun y hy => h y (List.mem_cons_of_mem x hy))

theorem strEndsWith_rem_imp_em (s : String) (h : strEndsWith s "rem" = true) :
    strEndsWith s "em" = true := by
  unfold strEndsWith at *
  rw [List.isSuffixOf_iff_suffix] at *
  exact List.IsSuffix.trans ⟨['r'], rfl⟩ h

/-- Spec side, §6: the duplicate-free first-seen sequence of an occurrence
list — keep each element at its first occurrence, in encounter order. -/
def specFirstSeen : List String → List String
  | [] => []
  | x :: l => x :: (specFirstSeen l).filter (fun y => y ≠ x)

theorem insertColor_of_not_mem {acc : List String} {d : String} (h : d ∉ acc) :
    insertColor acc d = acc ++ [d] := by
  unfold insertColor
  exact if_neg (fun hb => h (List.elem_iff.mp hb))

theorem foldl_insertColor_eq (l : List String) :
    ∀ acc : List String,
      l.foldl insertColor acc
        = acc ++ (specFirstSeen l).filter (fun y => decide (y ∉ acc)) := by
  induction l with
  | nil =>
    intro acc
    simp [specFirstSeen]
  | cons x l ih =>
    intro acc
    rw [List.foldl_cons]
    by_cases hx : x ∈ acc
    · rw [insertColor_of_mem hx, ih acc, specFirstSeen]
      congr 1
      rw [List.filter_cons]
      have hxd : (decide (x ∉ acc)) = false := by simp [hx]
      rw [hxd]
      simp only [Bool.false_eq_true, if_false]
      rw [List.filter_filter]
      refine (List.filter_congr ?_).symm
      intro y hy
      by_cases hya : y ∈ acc
      · simp [hya]
      · have hyx : y ≠ x := fun he => hya (he ▸ hx)
        simp [hya, hyx]
    · rw [insertColor_of_not_mem hx, ih (acc ++ [x]), List.append_assoc, specFirstSeen]
      congr 1
      rw [List.filter_cons]
      have hxd : (decide (x ∉ acc)) = true := by simp [hx]
      rw [hxd]
      simp only [if_true]
      rw [List.singleton_append]
      congr 1
      rw [List.filter_filter]
      refine List.filter_congr ?_
      intro y hy
      by_cases hya : y ∈ acc
      · simp [hya]
      · by_cases hyx : y = x
        · simp [hyx]
        · simp [hya, hyx]

theorem addNodeColors_foldl (style : StyleOut) (acc : List String) :
    addNodeColors style acc = (nodeOwnColors style).foldl insertColor acc := by
  unfold addNodeColors nodeOwnColors
  cases hb : style.border with
  | none =>
    by_cases h1 : truthyS style.background <;> by_cases h2 : truthyS style.color <;>
      simp [hb, h1, h2]
  | some b =>
    cases hs : b.spec with
    | none =>
      by_cases h1 : truthyS style.background <;> by_cases h2 : truthyS style.color <;>
        simp [hb, hs, h1, h2]
    | some sp =>
      by_cases h1 : truthyS style.background <;> by_cases h2 : truthyS style.color <;>
        by_cases h3 : sp.color = "" <;>
        simp [hb, hs, h1, h2, h3]

mutual
theorem collectColors_foldl (node : DesignNode) (acc : List String) :
    collectColors node acc = (specTreeColors node).foldl insertColor acc := by
  match node with
  | .mk t n l style tx src ida cls kids =>
    rw [collectColors, specTreeColors, List.foldl_append, ← addNodeColors_foldl,
      collectColorsList_foldl kids]

theorem collectColorsList_foldl (kids : List DesignNode) (acc : List String) :
    collectColorsList kids acc = (specTreeColorsList kids).foldl insertColor acc := by
  match kids with
  | [] => rw [collectColorsList, specTreeColorsList, List.foldl_nil]
  | k :: rest =>
    rw [collectColorsList, specTreeColorsList, List.foldl_append,
      ← collectColors_foldl k, collectColorsList_foldl rest]
end

/- ---------- C9 ---------- -/

/-- C9: `extractColorPalette` returns exactly the first-seen deduplication,
order included, of the pre-order occurrence list of the tree's
`style.background`, `style.color` and `style.border.color` values (so the
colors appear in pre-order first-seen order); the list is duplicate-free;
unioning the result of a repeated run back into it (with the same
first-seen set semantics) returns the list unchanged; and its members are
exactly the color strings found in those three fields. -/
theorem extractColorPalette_spec (t : DesignNode) :
    extractColorPalette t = specFirstSeen (specTreeColors t) ∧
    (extractColorPalette t).Nodup ∧
    unionFS (extractColorPalette t) (extractColorPalette t) = extractColorPalette t ∧
    (∀ c, c ∈ extractColorPalette t ↔ c ∈ specTreeColors t) := by
  refine ⟨?_, nodup_collectColors t [] List.nodup_nil,
    unionFS_self_of_subset _ _ (fun x hx => hx), fun c => ?_⟩
  · show collectColors t [] = specFirstSeen (specTreeColors t)
    rw [collectColors_foldl t [], foldl_insertColor_eq]
    simp
  · have h := mem_collectColors t [] c
    simpa [extractColorPalette] using h

/- ---------- C1 ---------- -/

/-- C1 counterexample: with `background: red` and `backgroundColor: blue`
both present and neither `transparent`, the emitted `style.background` is the
`backgroundColor` value `"blue"`, not the `background` value `"red"` as the
claim states. -/
theorem buildStyleObject_background_pref_cex :
    (buildStyleObject [("background", "red"), ("backgroundColor", "blue")]).background
        = some "blue" ∧
    (some "blue" : Option String) ≠ some "red" := by
  constructor
  · rfl
  · decide

/-- C1 (amended): the emitted `style.background` prefers `backgroundColor`
over `background` (the source's `backgroundColor` check runs second and
overwrites): when `backgroundColor` is present, nonempty and not
`"transparent"` it is emitted; otherwise a present, nonempty,
non-`"transparent"` `background` is emitted; otherwise the key is omitted —
in particular a `"transparent"` preferred value never produces the key. -/
theorem buildStyleObject_backgroundColor_overrides (computed : StyleMap) :
    (buildStyleObject computed).background =
      (let bg := getProp computed "background"
       let bgc := getProp computed "backgroundColor"
       if truthyS bgc ∧ bgc ≠ some "transparent" then bgc
       else if truthyS bg ∧ bg ≠ some "transparent" then bg
       else none) := rfl

/- ---------- C8 ---------- -/

/-- C8 counterexample: `"px"` has no numeric part, so it fails to parse as a
number, yet `parsePixelValue` returns NaN (the `px` branch returns
`parseFloat` unguarded), not the `0` the claim requires for inputs that fail
to parse. -/
theorem parsePixelValue_suffix_nan_cex :
    parsePixelValue (some "px") = none ∧ (none : JSNum) ≠ some 0 := by
  constructor
  · rfl
  · decide

/-- C8 (amended): `parsePixelValue` returns the parsed number for `"Npx"`,
N×16 for `"Nem"` and `"Nrem"`, 0 for percentages, the bare numeric parse
otherwise, and 0 for missing or empty input or when a suffix-free string
fails the bare parse; but a string with a `px`/`em`/`rem` suffix whose
numeric front part fails to parse yields NaN (non-finite), not 0.  It never
throws (it is a total function). -/
theorem parsePixelValue_cases :
    (∀ s q, strEndsWith (strTrim s) "px" = true → jsParseFloat (strTrim s) = some q →
        s ≠ "" → parsePixelValue (some s) = some q) ∧
    (∀ s q, strEndsWith (strTrim s) "px" = false → strEndsWith (strTrim s) "em" = true →
        jsParseFloat (strTrim s) = some q → s ≠ "" → parsePixelValue (some s) = some (q * 16)) ∧
    (∀ s q, strEndsWith (strTrim s) "rem" = true → strEndsWith (strTrim s) "px" = false →
        jsParseFloat (strTrim s) = some q → s ≠ "" → parsePixelValue (some s) = some (q * 16)) ∧
    (∀ s, strEndsWith (strTrim s) "px" = false → strEndsWith (strTrim s) "em" = false →
        strEndsWith (strTrim s) "%" = true → s ≠ "" → parsePixelValue (some s) = some 0) ∧
    parsePixelValue (some "") = some 0 ∧
    parsePixelValue none = some 0 ∧
    (∀ s q, strEndsWith (strTrim s) "px" = false → strEndsWith (strTrim s) "em" = false →
        strEndsWith (strTrim s) "%" = false → jsParseFloat (strTrim s) = some q →
        s ≠ "" → parsePixelValue (some s) = some q) ∧
    (∀ s, strEndsWith (strTrim s) "px" = false → strEndsWith (strTrim s) "em" = false →
        strEndsWith (strTrim s) "%" = false → jsParseFloat (strTrim s) = none →
        s ≠ "" → parsePixelValue (some s) = some 0) ∧
    (∀ s, strEndsWith (strTrim s) "px" = true → jsParseFloat (strTrim s) = none →
        s ≠ "" → parsePixelValue (some s) = none) := by
  refine ⟨?_, ?_, ?_, ?_, rfl, rfl, ?_, ?_, ?_⟩
  · intro s q hpx hq hne
    simp [parsePixelValue, hne, hpx, hq]
  · intro s q hpx hem hq hne
    simp [parsePixelValue, hne, hpx, hem, hq, jmul]
  · intro s q hrem hpx hq hne
    have hem := strEndsWith_rem_imp_em _ hrem
    simp [parsePixelValue, hne, hpx, hem, hq, jmul]
  · intro s hpx hem hpct hne
    have hrem : strEndsWith (strTrim s) "rem" = false := by
      by_contra hc
      rw [Bool.not_eq_false] at hc
      exact absurd (strEndsWith_rem_imp_em _ hc) (by simp [hem])
    simp [parsePixelValue, hne, hpx, hem, hrem, hpct]
  · intro s q hpx hem hpct hq hne
    have hrem : strEndsWith (strTrim s) "rem" = false := by
      by_contra hc
      rw [Bool.not_eq_false] at hc
      exact absurd (strEndsWith_rem_imp_em _ hc) (by simp [hem])
    simp [parsePixelValue, hne, hpx, hem, hrem, hpct, hq]
  · intro s hpx hem hpct hq hne
    have hrem : strEndsWith (strTrim s) "rem" = false := by
      by_contra hc
      rw [Bool.not_eq_false] at hc
      exact absurd (strEndsWith_rem_imp_em _ hc) (by simp [hem])
    simp [parsePixelValue, hne, hpx, hem, hrem, hpct, hq]
  · intro s hpx hq hne
    simp [parsePixelValue, hne, hpx, hq]

/- ---------- literal evaluation support ---------- -/

theorem digitVal0 : '0'.toNat - 48 = 0 := rfl
theorem digitVal1 : '1'.toNat - 48 = 1 := rfl
theorem digitVal2 : '2'.toNat - 48 = 2 := rfl
theorem digitVal3 : '3'.toNat - 48 = 3 := rfl
theorem digitVal4 : '4'.toNat - 48 = 4 := rfl
theorem digitVal5 : '5'.toNat - 48 = 5 := rfl
theorem digitVal6 : '6'.toNat - 48 = 6 := rfl
theorem digitVal7 : '7'.toNat - 48 = 7 := rfl
theorem digitVal8 : '8'.toNat - 48 = 8 := rfl
theorem digitVal9 : '9'.toNat - 48 = 9 := rfl

theorem jround_eq (a : ℚ) (k : ℤ) (h1 : (k : ℚ) ≤ a + 1/2) (h2 : a + 1/2 < (k : ℚ) + 1) :
    jround (some a) = some ((k : ℤ) : ℚ) := by
  have h : (⌊a + 1/2⌋ : ℤ) = k := by
    rw [Int.floor_eq_iff]
    exact ⟨by exact_mod_cast h1, by exact_mod_cast h2⟩
  show some ((⌊a + 1/2⌋ : ℤ) : ℚ) = some ((k : ℤ) : ℚ)
  rw [h]

theorem jfloor_eq (a : ℚ) (k : ℤ) (h1 : (k : ℚ) ≤ a) (h2 : a < (k : ℚ) + 1) :
    jfloor (some a) = some ((k : ℤ) : ℚ) := by
  have h : (⌊a⌋ : ℤ) = k := by
    rw [Int.floor_eq_iff]
    exact ⟨by exact_mod_cast h1, by exact_mod_cast h2⟩
  show some ((⌊a⌋ : ℤ) : ℚ) = some ((k : ℤ) : ℚ)
  rw [h]

theorem jceil_eq (a : ℚ) (k : ℤ) (h1 : (k : ℚ) - 1 < a) (h2 : a ≤ (k : ℚ)) :
    jceil (some a) = some ((k : ℤ) : ℚ) := by
  have h : (⌈a⌉ : ℤ) = k := by
    rw [Int.ceil_eq_iff]
    exact ⟨by exact_mod_cast h1, by exact_mod_cast h2⟩
  show some ((⌈a⌉ : ℤ) : ℚ) = some ((k : ℤ) : ℚ)
  rw [h]

/- ---------- C2 ---------- -/

theorem jroundV1200 : jround (some 1200) = some 1200 := by
  have h := jround_eq 1200 1200 (by norm_num) (by norm_num)
  simpa using h

/-- A `span` element (inline display by default) with no explicit width. -/
def cexSpan : Elem := .mk "span" none [] [] none [] none

/-- C2 counterexample: in the document conversion pass, an inline-level
element (`span`, default `display: inline`) with `auto` width resolves to
`viewport.width - margins = 1200`, not to the claim's 100px inline fallback
(and the resolution base is the viewport width, not the parent content
width). -/
theorem computeNodeLayout_inline_auto_cex :
    (computeNodeLayout cexSpan (getComputedStyles cexSpan []) DEFAULT_VIEWPORT (some 0) (some 0)).w
      = some 1200 ∧ (1200 : ℚ) ≠ 100 := by
  constructor
  · norm_num +decide [computeNodeLayout, getComputedStyles, getDefaultStyles, baseDefaultStyles,
      inlineTags, headingDefaults, assignAll, setProp, getProp, parseInlineStyle, strSplitOn,
      splitOnChar, camelCase, camelCaseChars, strToLower, strTrim, trimChars, Elem.tagName,
      Elem.styleAttr, parseSpacing, zeroQuad, splitWS, splitWSChars, splitWSRun, consHead, parsePixelValue,
      strEndsWith, jsParseFloat, takeDigits, digitsToNat, isWS, jadd, jsub, jmul, jdiv,
      jsTruthy, jsOr, truthyS, DEFAULT_VIEWPORT, jroundV1200, List.dropWhile, List.foldl]
  · norm_num

/-- C2 (amended): the claim's four-step priority order (explicit pixel/unit
width as parsed; percentage against the parent width; `auto`/absent on
block-level → parent width minus horizontal margins; `auto`/absent on
inline-level → 100) holds verbatim for `computeWidth` in the standalone
layout engine.  The document conversion pass (`computeNodeLayout`) instead
resolves every `auto`/absent width — inline elements included — to
`viewport.width - margin.left - margin.right`, and percentages against
`viewport.width`, with no 100px inline fallback. -/
theorem computeWidth_priority_amended :
    (∀ (styles : StyleMap) (parentWidth : ℚ),
        computeWidth styles parentWidth = specWidth styles parentWidth) ∧
    (∀ (e : Elem) (styles : StyleMap) (vp : Viewport) (ox oy : JSNum),
        (¬ jsTruthy (parsePixelValue (getProp styles "width")) ∨
            getProp styles "width" = some "auto") →
        (∀ s, getProp styles "width" = some s → strEndsWith s "%" = false) →
        (computeNodeLayout e styles vp ox oy).w
          = jround (jsub (jsub (some vp.width) (parseSpacing (getProp styles "margin")).left)
              (parseSpacing (getProp styles "margin")).right)) ∧
    (∀ (e : Elem) (styles : StyleMap) (vp : Viewport) (ox oy : JSNum) (s : String),
        getProp styles "width" = some s → strEndsWith s "%" = true →
        (computeNodeLayout e styles vp ox oy).w
          = jround (jmul (jdiv (jsParseFloat s) (some 100)) (some vp.width))) := by
  refine ⟨?_, ?_, ?_⟩
  · intro styles parentWidth
    unfold computeWidth specWidth
    cases hw : getProp styles "width" with
    | none => simp [truthyS]
    | some s =>
      by_cases hs : s = ""
      · subst hs; simp [truthyS]
      · by_cases ha : s = "auto"
        · subst ha; simp [truthyS]
        · simp [truthyS, hs, ha]
  · intro e styles vp ox oy hcond hpct
    unfold computeNodeLayout
    cases hw : getProp styles "width" with
    | none => simp only [hw]; rw [if_pos (by rw [hw] at hcond; exact hcond)]
    | some s =>
      have hp := hpct s hw
      simp only [hw, hp, Bool.false_eq_true, if_false]
      rw [if_pos (by rw [hw] at hcond; exact hcond)]
  · intro e styles vp ox oy s hw hp
    unfold computeNodeLayout
    simp only [hw, hp, if_true]

def w2autoStyles : StyleMap := [("width", "auto")]

def w2pctStyles : StyleMap := [("width", "50%")]

/-- C2 witness: the amended theorem applied at concrete inputs. -/
theorem computeWidth_priority_witness :
    computeWidth w2pctStyles 800 = specWidth w2pctStyles 800 ∧
    (computeNodeLayout cexSpan w2autoStyles DEFAULT_VIEWPORT (some 0) (some 0)).w
      = jround (jsub (jsub (some DEFAULT_VIEWPORT.width)
          (parseSpacing (getProp w2autoStyles "margin")).left)
          (parseSpacing (getProp w2autoStyles "margin")).right) ∧
    (computeNodeLayout cexSpan w2pctStyles DEFAULT_VIEWPORT (some 0) (some 0)).w
      = jround (jmul (jdiv (jsParseFloat "50%") (some 100)) (some DEFAULT_VIEWPORT.width)) := by
  refine ⟨computeWidth_priority_amended.1 w2pctStyles 800, ?_, ?_⟩
  · refine computeWidth_priority_amended.2.1 cexSpan w2autoStyles DEFAULT_VIEWPORT
      (some 0) (some 0) (Or.inr (by decide)) ?_
    intro s hs
    have hs2 : some "auto" = some s := hs
    obtain rfl := (Option.some.inj hs2).symm
    decide
  · exact computeWidth_priority_amended.2.2 cexSpan w2pctStyles DEFAULT_VIEWPORT
      (some 0) (some 0) "50%" (by decide) (by decide)

/- ---------- C3 ---------- -/

theorem jfloorV125 : jfloor (some 125) = some 125 := by
  have h := jfloor_eq 125 125 (by norm_num) (by norm_num)
  simpa using h

theorem jceilV2d125 : jceil (some (2 / 125)) = some 1 := by
  have h := jceil_eq (2 / 125) 1 (by norm_num) (by norm_num)
  simpa using h

theorem maxV112 : max (112 / 5 : ℚ) 112 = 112 := by
  rw [max_eq_right]
  norm_num

def plainDiv : Elem := .mk "div" none [] [] none [] none

/-- An element with direct text `"Hi"` and five child elements. -/
def cexTextKids : Elem :=
  .mk "div" none ["Hi"] [plainDiv, plainDiv, plainDiv, plainDiv, plainDiv] none [] none

/-- C3 counterexample: an element with direct text (1 estimated line,
`lineHeight = 16 × 1.4 = 22.4`) and five children gets estimated height
`max(1 × 22.4, 5 × 22.4) = 112`, not the claim's
`lines × lineHeight + padding = 22.4`: the per-child estimate applies even
when direct text is present. -/
theorem estimateElementHeight_children_cex :
    estimateElementHeight cexTextKids (getComputedStyles cexTextKids []) = some 112 ∧
    (112 : ℚ) ≠ 112 / 5 := by
  have hlh : parsePixelValue (getProp (getComputedStyles cexTextKids []) "lineHeight")
      = some 0 := by decide
  have hfs : getProp (getComputedStyles cexTextKids []) "fontSize" = some "16px" := by decide
  have hfs2 : parsePixelValue (some "16px") = some 16 := by
    norm_num +decide [parsePixelValue, strTrim, trimChars, strEndsWith, jsParseFloat,
      takeDigits, digitsToNat, isWS, List.dropWhile, digitVal1, digitVal6]
  have hw : parsePixelValue (getProp (getComputedStyles cexTextKids []) "width")
      = some 0 := by decide
  have hpad0 : getProp (getComputedStyles cexTextKids []) "padding" = some "0" := by decide
  have hpad : parseSpacing (getProp (getComputedStyles cexTextKids []) "padding")
      = zeroQuad := by
    rw [hpad0]
    norm_num +decide [parseSpacing, splitWS, splitWSChars, splitWSRun, consHead, parsePixelValue, strTrim,
      trimChars, strEndsWith, jsParseFloat, takeDigits, digitsToNat, isWS,
      List.dropWhile, digitVal0, zeroQuad]
  have htext : getDirectTextContent cexTextKids = some "Hi" := by decide
  have hlen : ("Hi" : String).length = 2 := rfl
  have hkids : cexTextKids.children.length = 5 := rfl
  refine ⟨?_, by norm_num⟩
  simp only [estimateElementHeight, hlh, hfs, hfs2, hw, hpad, htext, hlen, hkids]
  norm_num [jsOr, jsTruthy, jmul, jadd, jdiv, jmax, zeroQuad, jfloorV125, jceilV2d125, maxV112]

set_option maxHeartbeats 1000000 in
/-- C3 (amended): for every element with direct text content, the estimated
height is `lines × lineHeight` — with `charsPerLine`, `lines` and
`lineHeight` exactly as the claim states them (plus a final fallback of 22
when `fontSize × 1.4` is zero or non-finite, and the element's own parsed
width, fallback 1000, as the container width) — **maxed with
`childCount × lineHeight` when the element also has child elements**, plus
top and bottom padding. -/
theorem estimateElementHeight_text_amended (e : Elem) (styles : StyleMap) (t : String)
    (htext : getDirectTextContent e = some t) :
    estimateElementHeight e styles = specTextHeight e styles t := by
  simp only [estimateElementHeight, specTextHeight, htext]

/-- C3 witness: the amended theorem applied to the concrete text element. -/
theorem estimateElementHeight_text_witness :
    getDirectTextContent cexTextKids = some "Hi" ∧
    estimateElementHeight cexTextKids (getComputedStyles cexTextKids [])
      = specTextHeight cexTextKids (getComputedStyles cexTextKids []) "Hi" :=
  ⟨by decide, estimateElementHeight_text_amended cexTextKids
      (getComputedStyles cexTextKids []) "Hi" (by decide)⟩

/- ---------- C4 ---------- -/

/-- A body element whose inline style hides it. -/
def cexHiddenBody : Elem := .mk "body" (some "display:none") [] [] none [] none

/-- C4 counterexample: a document that has a body but no visible nodes (the
body resolves `display: none`) converts to `null`, not to the minimal empty
frame the claim promises for every document with no visible nodes. -/
theorem documentToDesignTree_hidden_body_cex :
    documentToDesignTree ⟨some cexHiddenBody, []⟩ DEFAULT_VIEWPORT = none ∧
    (none : Option DesignNode) ≠ some (createEmptyDesignTree DEFAULT_VIEWPORT) := by
  constructor
  · rfl
  · intro h
    exact Option.noConfusion h

/-- C4 (amended): a document with no body element yields the minimal empty
frame covering the full viewport with a white background (never failing);
but a document whose body resolves `display: none` or
`visibility: hidden` — i.e. one with no visible nodes — yields `null`
instead of the empty frame. -/
theorem documentToDesignTree_missing_input_amended :
    (∀ (rules : List CSSRule) (vp : Viewport),
        documentToDesignTree ⟨none, rules⟩ vp = some (createEmptyDesignTree vp) ∧
        (createEmptyDesignTree vp).layout = ⟨some 0, some 0, some vp.width, some vp.height⟩ ∧
        (createEmptyDesignTree vp).style.background = some "rgb(255, 255, 255)") ∧
    (∀ (body : Elem) (rules : List CSSRule) (vp : Viewport),
        (getProp (getComputedStyles body rules) "display" = some "none" ∨
         getProp (getComputedStyles body rules) "visibility" = some "hidden") →
        documentToDesignTree ⟨some body, rules⟩ vp = none) := by
  constructor
  · intro rules vp
    exact ⟨rfl, rfl, rfl⟩
  · intro body rules vp h
    show elementToDesignNode body rules vp (some 0) (some 0) = none
    cases body with
    | mk rawTag sa tx kids ida cl src =>
      simp only [elementToDesignNode]
      by_cases hskip : skipTags.contains (effectiveTag (.mk rawTag sa tx kids ida cl src)) = true
      · rw [if_pos hskip]
      · rw [if_neg hskip, if_pos h]

/-- C4 witness: the amended theorem applied to a concrete document with no
body and to one with a hidden body. -/
theorem documentToDesignTree_missing_input_witness :
    documentToDesignTree ⟨none, []⟩ DEFAULT_VIEWPORT
      = some (createEmptyDesignTree DEFAULT_VIEWPORT) ∧
    documentToDesignTree ⟨some cexHiddenBody, []⟩ DEFAULT_VIEWPORT = none :=
  ⟨(documentToDesignTree_missing_input_amended.1 [] DEFAULT_VIEWPORT).1,
   documentToDesignTree_missing_input_amended.2 cexHiddenBody [] DEFAULT_VIEWPORT
     (Or.inl (by decide))⟩

/- ---------- C6 ---------- -/

/-- C6: an element whose (lower-cased) tag is one of the skip tags, or whose
resolved `display` is `none` or `visibility` is `hidden`, produces no node
(so neither it nor any descendant appears in the output), and the sibling
vertical cursor does not advance past it: processing a child list that
starts with such an element is the same as processing the list without it. -/
theorem elementToDesignNode_filtered :
    ∀ (e : Elem) (rules : List CSSRule) (vp : Viewport) (ox oy : JSNum),
      (skipTags.contains (strToLower e.tagName) = true ∨
       getProp (getComputedStyles e rules) "display" = some "none" ∨
       getProp (getComputedStyles e rules) "visibility" = some "hidden") →
      elementToDesignNode e rules vp ox oy = none ∧
      (∀ (rest : List Elem) (px curY : JSNum),
        processChildren (e :: rest) rules vp px curY = processChildren rest rules vp px curY) := by
  intro e rules vp ox oy h
  have hnone : ∀ (ox2 oy2 : JSNum), elementToDesignNode e rules vp ox2 oy2 = none := by
    intro ox2 oy2
    cases e with
    | mk rawTag sa tx kids ida cl src =>
      simp only [elementToDesignNode]
      by_cases hskip : skipTags.contains (effectiveTag (.mk rawTag sa tx kids ida cl src)) = true
      · rw [if_pos hskip]
      · rw [if_neg hskip]
        rcases h with h1 | h2
        · exfalso
          apply hskip
          have hne : strToLower (Elem.mk rawTag sa tx kids ida cl src).tagName ≠ "" := by
            intro he
            rw [he] at h1
            exact absurd h1 (by decide)
          unfold effectiveTag
          rw [if_neg hne]
          exact h1
        · rw [if_pos h2]
  refine ⟨hnone ox oy, ?_⟩
  intro rest px curY
  rw [processChildren, hnone px curY]

/-- A `div` with `display:none` and nested children. -/
def cexHiddenDiv : Elem := .mk "div" (some "display:none") [] [plainDiv, plainDiv] none [] none

/-- C6 witness: the filtering theorem applied to a concrete hidden `div`
with nested children, in a sibling list. -/
theorem elementToDesignNode_filtered_witness :
    elementToDesignNode cexHiddenDiv [] DEFAULT_VIEWPORT (some 0) (some 0) = none ∧
    processChildren [cexHiddenDiv, plainDiv] [] DEFAULT_VIEWPORT (some 0) (some 0)
      = processChildren [plainDiv] [] DEFAULT_VIEWPORT (some 0) (some 0) := by
  have h := elementToDesignNode_filtered cexHiddenDiv [] DEFAULT_VIEWPORT (some 0) (some 0)
    (Or.inr (Or.inl (by decide)))
  exact ⟨h.1, h.2 [plainDiv] (some 0) (some 0)⟩

/- ---------- C7 ---------- -/

/-- C7: in `computeFlexLayout`, before any `-reverse` reversal, the first
child's main-axis offset from the container's content start equals the
spec's `justify-content` table applied to
`availableSpace = availableMainAxisSize - (Σ child sizes + gap×(n-1))`, and
the extra `space-between` gap equals `availableSpace/(n-1)` for `n > 1` and
0 otherwise. -/
theorem computeFlexLayout_justify_offsets
    (container : FlexContainer) (children : List Layout)
    (first : Layout) (rest : List Layout) (hc : children = first :: rest)
    (av st : ℚ)
    (hav : (flexParams container children).availableSpace = some av)
    (hst : (if (flexParams container children).isRow then
              jadd container.layout.x (flexParams container children).padding.left
            else
              jadd container.layout.y (flexParams container children).padding.top) = some st) :
    (∃ firstPos,
        (flexPositionLoop (flexParams container children) container.layout children
            (flexParams container children).currentPos0).head? = some firstPos ∧
        (if (flexParams container children).isRow then firstPos.x else firstPos.y)
          = some (st + specJustifyOffset (flexParams container children).justifyContent
              av children.length)) ∧
    (flexParams container children).spaceBetween
      = some (if (flexParams container children).justifyContent = "space-between" ∧
                  1 < children.length
              then av / ((children.length : ℚ) - 1) else 0) := by
  set p := flexParams container children with hp
  have hn : 1 ≤ children.length := by rw [hc]; simp
  have hpos0 : p.currentPos0 = some (specJustifyOffset p.justifyContent av children.length) := by
    have : p.currentPos0 =
        (if p.justifyContent = "center" then jdiv p.availableSpace (some 2)
         else if p.justifyContent = "flex-end" then p.availableSpace
         else if p.justifyContent = "space-between" then some 0
         else if p.justifyContent = "space-around" then
           jdiv p.availableSpace (some ((children.length : ℚ) * 2))
         else if p.justifyContent = "space-evenly" then
           jdiv p.availableSpace (some ((children.length : ℚ) + 1))
         else some 0) := by
      rw [hp]
      rfl
    rw [this, hav]
    unfold specJustifyOffset
    have hne1 : ((children.length : ℚ)) * 2 ≠ 0 := by
      have : (0 : ℚ) < (children.length : ℚ) := by exact_mod_cast hn
      positivity
    have hne2 : ((children.length : ℚ)) + 1 ≠ 0 := by positivity
    split_ifs <;> simp [jdiv, hne1, hne2] <;> ring_nf
  constructor
  · subst hc
    rw [flexPositionLoop]
    by_cases hrow : p.isRow = true
    · have hst2 : jadd container.layout.x p.padding.left = some st := by
        simpa [hrow] using hst
      simp only [hrow, if_true, List.head?_cons, Option.some.injEq]
      refine ⟨_, rfl, ?_⟩
      simp only [hrow, if_true]
      rw [hst2, hpos0]
      simp [jadd]
    · have hrow2 : p.isRow = false := by
        cases h2 : p.isRow
        · rfl
        · exact absurd h2 hrow
      have hst2 : jadd container.layout.y p.padding.top = some st := by
        simpa [hrow2] using hst
      simp only [hrow2, Bool.false_eq_true, if_false, List.head?_cons, Option.some.injEq]
      refine ⟨_, rfl, ?_⟩
      simp only [hrow2, Bool.false_eq_true, if_false]
      rw [hst2, hpos0]
      simp [jadd]
  · have : p.spaceBetween =
        (if p.justifyContent = "space-between" ∧ 1 < children.length then
           jdiv p.availableSpace (some ((children.length : ℚ) - 1))
         else some 0) := by
      rw [hp]
      rfl
    rw [this, hav]
    by_cases hsb : p.justifyContent = "space-between" ∧ 1 < children.length
    · have hne : ((children.length : ℚ)) - 1 ≠ 0 := by
        have : (1 : ℚ) < (children.length : ℚ) := by exact_mod_cast hsb.2
        intro h0
        nlinarith
      simp [hsb, jdiv, hne]
    · simp [hsb]

def w7container : FlexContainer :=
  ⟨[("justifyContent", "center")], ⟨some 0, some 0, some 500, some 100⟩⟩

def w7childA : Layout := ⟨some 0, some 0, some 100, some 50⟩

def w7children : List Layout := [w7childA, w7childA]

/-- C7 witness: the justify-content offset theorem applied to a concrete
centered row container (available space 300). -/
theorem computeFlexLayout_justify_offsets_witness :
    (∃ firstPos,
        (flexPositionLoop (flexParams w7container w7children) w7container.layout w7children
            (flexParams w7container w7children).currentPos0).head? = some firstPos ∧
        (if (flexParams w7container w7children).isRow then firstPos.x else firstPos.y)
          = some (0 + specJustifyOffset (flexParams w7container w7children).justifyContent
              300 w7children.length)) ∧
    (flexParams w7container w7children).spaceBetween
      = some (if (flexParams w7container w7children).justifyContent = "space-between" ∧
                  1 < w7children.length
              then 300 / ((w7children.length : ℚ) - 1) else 0) := by
  refine computeFlexLayout_justify_offsets w7container w7children w7childA [w7childA] rfl 300 0
    ?_ ?_
  · norm_num +decide [flexParams, w7container, w7children, w7childA, jsOrS, jsOr, jsTruthy,
      truthyS, getProp, parseSpacing, parsePixelValue, zeroQuad, jadd, jsub, jmul, jdiv,
      List.foldl, FlexContainer.computedStyles, FlexContainer.layout]
  · norm_num +decide [flexParams, w7container, w7children, w7childA, jsOrS, jsOr, jsTruthy,
      truthyS, getProp, parseSpacing, parsePixelValue, zeroQuad, jadd, jsub, jmul, jdiv,
      List.foldl, FlexContainer.computedStyles, FlexContainer.layout]

/- ---------- extraction lemmas for the tree assembler ---------- -/

theorem elementToDesignNode_some_layout {e : Elem} {rules : List CSSRule} {vp : Viewport}
    {ox oy : JSNum} {n : DesignNode} (h : elementToDesignNode e rules vp ox oy = some n) :
    n.layout = computeNodeLayout e (getComputedStyles e rules) vp ox oy := by
  cases e with
  | mk rawTag sa tx kids ida cl src =>
    simp only [elementToDesignNode] at h
    by_cases h1 : skipTags.contains (effectiveTag (.mk rawTag sa tx kids ida cl src)) = true
    · rw [if_pos h1] at h
      exact absurd h (by simp)
    · rw [if_neg h1] at h
      by_cases h2 :
          (getProp (getComputedStyles (Elem.mk rawTag sa tx kids ida cl src) rules) "display"
              = some "none" ∨
           getProp (getComputedStyles (Elem.mk rawTag sa tx kids ida cl src) rules) "visibility"
              = some "hidden")
      · rw [if_pos h2] at h
        exact absurd h (by simp)
      · rw [if_neg h2] at h
        injection h with hn
        rw [← hn]
        rfl

theorem elementToDesignNode_some_children {e : Elem} {rules : List CSSRule} {vp : Viewport}
    {ox oy : JSNum} {n : DesignNode} (h : elementToDesignNode e rules vp ox oy = some n) :
    n.children = processChildren e.children rules vp
      (computeNodeLayout e (getComputedStyles e rules) vp ox oy).x
      (computeNodeLayout e (getComputedStyles e rules) vp ox oy).y := by
  cases e with
  | mk rawTag sa tx kids ida cl src =>
    simp only [elementToDesignNode] at h
    by_cases h1 : skipTags.contains (effectiveTag (.mk rawTag sa tx kids ida cl src)) = true
    · rw [if_pos h1] at h
      exact absurd h (by simp)
    · rw [if_neg h1] at h
      by_cases h2 :
          (getProp (getComputedStyles (Elem.mk rawTag sa tx kids ida cl src) rules) "display"
              = some "none" ∨
           getProp (getComputedStyles (Elem.mk rawTag sa tx kids ida cl src) rules) "visibility"
              = some "hidden")
      · rw [if_pos h2] at h
        exact absurd h (by simp)
      · rw [if_neg h2] at h
        injection h with hn
        rw [← hn]
        rfl

theorem computeNodeLayout_h_jround (element : Elem) (styles : StyleMap) (vp : Viewport)
    (ox oy : JSNum) :
    ∃ v, (computeNodeLayout element styles vp ox oy).h = jround v := ⟨_, rfl⟩

/- ---------- C5 ---------- -/

/-- Invariant threaded through the sibling loop: every produced node has
integer `y ≥ z` and integer `h ≥ 0`, and the list is pairwise vertically
separated. -/
theorem processChildren_chain (rules : List CSSRule) (vp : Viewport) :
    ∀ (kids : List Elem) (px : JSNum) (z : ℤ),
      (∀ c ∈ kids, ∃ q : ℚ,
          (parseSpacing (getProp (getComputedStyles c rules) "margin")).top = some q ∧ 0 ≤ q) →
      (∀ c ∈ kids, ∃ q : ℚ, 0 ≤ q ∧
          (computeNodeLayout c (getComputedStyles c rules) vp (some 0) (some 0)).h = some q) →
      (∀ n ∈ processChildren kids rules vp px (some (z : ℚ)),
          ∃ (y h : ℤ), n.layout.y = some ((y : ℤ) : ℚ) ∧ n.layout.h = some ((h : ℤ) : ℚ) ∧
            z ≤ y ∧ 0 ≤ h) ∧
      (processChildren kids rules vp px (some (z : ℚ))).Pairwise VertSep := by
  intro kids
  induction kids with
  | nil =>
    intro px z hm hh
    constructor
    · intro n hn
      rw [processChildren] at hn
      exact absurd hn (List.not_mem_nil n)
    · rw [processChildren]
      exact List.Pairwise.nil
  | cons child rest ih =>
    intro px z hm hh
    cases he : elementToDesignNode child rules vp px (some (z : ℚ)) with
    | none =>
      rw [processChildren, he]
      exact ih px z (fun c hc => hm c (List.mem_cons_of_mem child hc))
        (fun c hc => hh c (List.mem_cons_of_mem child hc))
    | some node =>
      rw [processChildren, he]
      have hlay := elementToDesignNode_some_layout he
      obtain ⟨mt, hmt, hmt0⟩ := hm child (List.mem_cons_self child rest)
      have hy0 : node.layout.y
          = jround (jadd (some ((z : ℤ) : ℚ))
              (parseSpacing (getProp (getComputedStyles child rules) "margin")).top) := by
        rw [hlay, computeNodeLayout_y_eq]
      rw [hmt] at hy0
      simp only [jadd] at hy0
      obtain ⟨w, hw, hzw⟩ := jround_int_add_nonneg z mt hmt0
      rw [hw] at hy0
      obtain ⟨qh, hqh0, hqh⟩ := hh child (List.mem_cons_self child rest)
      have hh1 : node.layout.h = some qh := by
        rw [hlay, computeNodeLayout_h_indep _ _ _ px (some ((z : ℤ) : ℚ)) (some 0) (some 0)]
        exact hqh
      obtain ⟨v, hv⟩ := computeNodeLayout_h_jround child (getComputedStyles child rules) vp
        px (some ((z : ℤ) : ℚ))
      have hvint : ∃ k : ℤ, node.layout.h = some ((k : ℤ) : ℚ) := by
        rw [hlay, hv]
        cases v with
        | none => exfalso; rw [hlay, hv] at hh1; exact Option.noConfusion hh1
        | some a => exact jround_eq_int a
      obtain ⟨k, hk⟩ := hvint
      have hkq : ((k : ℤ) : ℚ) = qh := by
        rw [hk] at hh1
        exact Option.some.inj hh1
      have hk0 : 0 ≤ k := by
        have : (0 : ℚ) ≤ ((k : ℤ) : ℚ) := by rw [hkq]; exact hqh0
        exact_mod_cast this
      have hcur : jadd node.layout.y node.layout.h = some ((((w + k) : ℤ)) : ℚ) := by
        rw [hy0, hk]
        simp only [jadd]
        push_cast
        ring_nf
      dsimp only
      rw [hcur]
      obtain ⟨ihmem, ihpw⟩ := ih px (w + k)
        (fun c hc => hm c (List.mem_cons_of_mem child hc))
        (fun c hc => hh c (List.mem_cons_of_mem child hc))
      constructor
      · intro n hn
        rcases List.mem_cons.mp hn with rfl | hn2
        · exact ⟨w, k, hy0, hk, hzw, hk0⟩
        · obtain ⟨y2, h2, hy2, hh2, hge2, hh02⟩ := ihmem n hn2
          exact ⟨y2, h2, hy2, hh2, by omega, hh02⟩
      · refine List.Pairwise.cons ?_ ihpw
        intro b hb
        obtain ⟨y2, h2, hy2, hh2, hge2, hh02⟩ := ihmem b hb
        refine ⟨(w : ℚ), (k : ℚ), (y2 : ℚ), hy0, hk, hy2, ?_⟩
        have : w + k ≤ y2 := hge2
        exact_mod_cast this

/-- C5 (amended): provided every child's computed top margin is nonnegative
and every child's computed height is nonnegative (negative declared margins
and heights pass through the value parsers and can make siblings overlap),
siblings produced by the child-processing loop never overlap vertically:
the list is pairwise vertically separated, i.e. for any child A preceding a
child B, `B.layout.y ≥ A.layout.y + A.layout.h`. -/
theorem processChildren_no_vertical_overlap
    (kids : List Elem) (rules : List CSSRule) (vp : Viewport) (px : JSNum) (z : ℤ)
    (hm : ∀ c ∈ kids, ∃ q : ℚ,
        (parseSpacing (getProp (getComputedStyles c rules) "margin")).top = some q ∧ 0 ≤ q)
    (hh : ∀ c ∈ kids, ∃ q : ℚ, 0 ≤ q ∧
        (computeNodeLayout c (getComputedStyles c rules) vp (some 0) (some 0)).h = some q) :
    (processChildren kids rules vp px (some ((z : ℤ) : ℚ))).Pairwise VertSep :=
  (processChildren_chain rules vp kids px z hm hh).2

theorem jroundV0 : jround (some 0) = some 0 := by
  have h := jround_eq 0 0 (by norm_num) (by norm_num)
  simpa using h

theorem jroundV30 : jround (some 30) = some 30 := by
  have h := jround_eq 30 30 (by norm_num) (by norm_num)
  simpa using h

theorem jroundVneg20 : jround (some (-20)) = some (-20) := by
  have h := jround_eq (-20) (-20) (by norm_num) (by norm_num)
  simpa using h

theorem jroundV22 : jround (some (112 / 5)) = some 22 := by
  have h := jround_eq (112 / 5) 22 (by norm_num) (by norm_num)
  simpa using h

def cexDivA : Elem := .mk "div" (some "height:30px") [] [] none [] none

def cexDivB : Elem := .mk "div" (some "height:30px;margin:-50px 0") [] [] none [] none

/-- A parent whose second child declares a negative top margin. -/
def cexOverlapParent : Elem :=
  .mk "div" (some "height:100px") [] [cexDivA, cexDivB] none [] none

/-- C5 counterexample: with a `-50px` top margin on the second child, the
tree assembler produces siblings with `A.layout.y = 0`, `A.layout.h = 30`
and `B.layout.y = -20 < A.layout.y + A.layout.h`: siblings can overlap
vertically, contradicting the claim. -/
theorem processChildren_overlap_cex :
    ((elementToDesignNode cexOverlapParent [] DEFAULT_VIEWPORT (some 0) (some 0)).map
        (fun n => n.children.map (fun c => (c.layout.y, c.layout.h))))
      = some [(some 0, some 30), (some (-20), some 30)] ∧
    ¬ ((0 : ℚ) + 30 ≤ -20) := by
  constructor
  · norm_num +decide [elementToDesignNode, processChildren, computeNodeLayout,
      estimateElementHeight, getComputedStyles, getDefaultStyles, baseDefaultStyles,
      inlineTags, headingDefaults, assignAll, setProp, getProp, parseInlineStyle, strSplitOn,
      splitOnChar, camelCase, camelCaseChars, strToLower, strTrim, trimChars, effectiveTag,
      skipTags, getElementType, getDirectTextContent, strJoin, Elem.tagName, Elem.styleAttr,
      Elem.children, Elem.textNodes, DesignNode.children, DesignNode.layout, parseSpacing,
      zeroQuad, splitWS, splitWSChars, splitWSRun, consHead, parsePixelValue, strEndsWith,
      jsParseFloat, takeDigits, digitsToNat, isWS, jadd, jsub, jmul, jdiv, jmax, jsTruthy,
      jsOr, truthyS, DEFAULT_VIEWPORT, cexOverlapParent, cexDivA, cexDivB, jroundV0,
      jroundV30, jroundVneg20, jroundV22, jroundV1200, List.dropWhile, List.foldl,
      digitVal0, digitVal1, digitVal3, digitVal5]
  · norm_num

/-- C5 witness: the amended no-overlap theorem applied to two default `div`
children (margins 0, heights 22). -/
theorem processChildren_no_vertical_overlap_witness :
    (processChildren [plainDiv, plainDiv] [] DEFAULT_VIEWPORT (some 0)
        (some ((0 : ℤ) : ℚ))).Pairwise VertSep := by
  refine processChildren_no_vertical_overlap [plainDiv, plainDiv] [] DEFAULT_VIEWPORT
    (some 0) 0 ?_ ?_
  · intro c hc
    have hc2 : c = plainDiv := by
      rcases List.mem_cons.mp hc with h | h
      · exact h
      · rcases List.mem_cons.mp h with h2 | h2
        · exact h2
        · exact absurd h2 (List.not_mem_nil c)
    subst hc2
    refine ⟨0, ?_, le_refl 0⟩
    norm_num +decide [getComputedStyles, getDefaultStyles, baseDefaultStyles, inlineTags,
      headingDefaults, assignAll, setProp, getProp, parseInlineStyle, strToLower, strTrim,
      trimChars, Elem.tagName, Elem.styleAttr, parseSpacing, zeroQuad, splitWS, splitWSChars,
      splitWSRun, consHead, parsePixelValue, strEndsWith, jsParseFloat, takeDigits,
      digitsToNat, isWS, plainDiv, List.dropWhile, List.foldl, digitVal0]
  · intro c hc
    have hc2 : c = plainDiv := by
      rcases List.mem_cons.mp hc with h | h
      · exact h
      · rcases List.mem_cons.mp h with h2 | h2
        · exact h2
        · exact absurd h2 (List.not_mem_nil c)
    subst hc2
    refine ⟨22, by norm_num, ?_⟩
    norm_num +decide [computeNodeLayout, estimateElementHeight, getComputedStyles,
      getDefaultStyles, baseDefaultStyles, inlineTags, headingDefaults, assignAll, setProp,
      getProp, parseInlineStyle, strToLower, strTrim, trimChars, Elem.tagName, Elem.styleAttr,
      Elem.children, Elem.textNodes, getDirectTextContent, strJoin, parseSpacing, zeroQuad,
      splitWS, splitWSChars, splitWSRun, consHead, parsePixelValue, strEndsWith, jsParseFloat,
      takeDigits, digitsToNat, isWS, jadd, jsub, jmul, jdiv, jmax, jsTruthy, jsOr, truthyS,
      DEFAULT_VIEWPORT, plainDiv, jroundV22, List.dropWhile, List.foldl, digitVal0, digitVal1,
      digitVal6]

/- ---------- C10 ---------- -/

theorem processChildren_x_mem (rules : List CSSRule) (vp : Viewport) :
    ∀ (kids : List Elem) (px curY : JSNum) (nd : DesignNode),
      nd ∈ processChildren kids rules vp px curY →
      ∃ ce, ce ∈ kids ∧
        nd.layout.x = jround (jadd px
          (parseSpacing (getProp (getComputedStyles ce rules) "margin")).left) := by
  intro kids
  induction kids with
  | nil =>
    intro px curY nd hnd
    rw [processChildren] at hnd
    exact absurd hnd (List.not_mem_nil nd)
  | cons child rest ih =>
    intro px curY nd hnd
    cases he : elementToDesignNode child rules vp px curY with
    | none =>
      rw [processChildren, he] at hnd
      obtain ⟨ce, hce, hx⟩ := ih px curY nd hnd
      exact ⟨ce, List.mem_cons_of_mem child hce, hx⟩
    | some node =>
      rw [processChildren, he] at hnd
      dsimp only at hnd
      rcases List.mem_cons.mp hnd with rfl | hnd2
      · refine ⟨child, List.mem_cons_self child rest, ?_⟩
        rw [elementToDesignNode_some_layout he, computeNodeLayout_x_eq]
      · obtain ⟨ce, hce, hx⟩ := ih px (jadd node.layout.y node.layout.h) nd hnd2
        exact ⟨ce, List.mem_cons_of_mem child hce, hx⟩

/-- C10: every emitted child node's horizontal position is based on the
parent node's outer box: `child.layout.x = round(parent.layout.x +
child's computed margin.left)` for some source child element — the parent's
padding and border width play no part. -/
theorem child_x_parent_outer :
    ∀ (e : Elem) (rules : List CSSRule) (vp : Viewport) (ox oy : JSNum) (n : DesignNode),
      elementToDesignNode e rules vp ox oy = some n →
      ∀ child ∈ n.children, ∃ ce, ce ∈ e.children ∧
        child.layout.x = jround (jadd n.layout.x
          (parseSpacing (getProp (getComputedStyles ce rules) "margin")).left) := by
  intro e rules vp ox oy n hn child hchild
  have hk := elementToDesignNode_some_children hn
  have hl := elementToDesignNode_some_layout hn
  rw [hk, ← hl] at hchild
  exact processChildren_x_mem rules vp e.children n.layout.x
    (computeNodeLayout e (getComputedStyles e rules) vp ox oy).y child
    (by rw [hl] at hchild ⊢; exact hchild)

theorem jroundV5 : jround (some 5) = some 5 := by
  have h := jround_eq 5 5 (by norm_num) (by norm_num)
  simpa using h

theorem jroundV1190 : jround (some 1190) = some 1190 := by
  have h := jround_eq 1190 1190 (by norm_num) (by norm_num)
  simpa using h

def w10child : Elem := .mk "div" (some "margin:5px") [] [] none [] none

def w10parent : Elem := .mk "div" none [] [w10child] none [] none

def w10childNode : DesignNode :=
  .mk "frame" "div" ⟨some 5, some 5, some 1190, some 22⟩
    { emptyStyleOut with
        fontSize := some "16px",
        margin := some ⟨some 5, some 5, some 5, some 5⟩ }
    none none none [] []

def w10node : DesignNode :=
  .mk "frame" "div" ⟨some 0, some 0, some 1200, some 22⟩
    { emptyStyleOut with fontSize := some "16px" }
    none none none [] [w10childNode]

/-- C10 witness: the parent-outer-box theorem applied to a concrete parent
with one 5px-margin child (child x = round(0 + 5) = 5). -/
theorem child_x_parent_outer_witness :
    elementToDesignNode w10parent [] DEFAULT_VIEWPORT (some 0) (some 0) = some w10node ∧
    w10childNode ∈ w10node.children ∧
    (∃ ce, ce ∈ w10parent.children ∧
      w10childNode.layout.x = jround (jadd w10node.layout.x
        (parseSpacing (getProp (getComputedStyles ce []) "margin")).left)) := by
  have hn : elementToDesignNode w10parent [] DEFAULT_VIEWPORT (some 0) (some 0)
      = some w10node := by
    norm_num +decide [elementToDesignNode, processChildren, computeNodeLayout,
      estimateElementHeight, buildStyleObject, getComputedStyles, getDefaultStyles,
      baseDefaultStyles, inlineTags, headingDefaults, assignAll, setProp, getProp,
      parseInlineStyle, strSplitOn, splitOnChar, camelCase, camelCaseChars, strToLower,
      strTrim, trimChars, effectiveTag, skipTags, getElementType, getDirectTextContent,
      strJoin, Elem.tagName, Elem.styleAttr, Elem.children, Elem.textNodes, Elem.idAttr,
      Elem.classList, Elem.srcAttr, parseSpacing, zeroQuad, splitWS, splitWSChars,
      splitWSRun, consHead, parsePixelValue, strEndsWith, jsParseFloat, takeDigits,
      digitsToNat, isWS, parseBorder, defaultBorder, borderStyleKeywords, isAllDigits,
      jadd, jsub, jmul, jdiv, jmax, jsTruthy, jsOr, truthyS, DEFAULT_VIEWPORT, w10parent,
      w10child, w10node, w10childNode, emptyStyleOut, jroundV0, jroundV5, jroundV22,
      jroundV1190, jroundV1200, List.dropWhile, List.foldl, digitVal1, digitVal5, digitVal6]
  have hmem : w10childNode ∈ w10node.children := List.mem_singleton_self w10childNode
  exact ⟨hn, hmem,
    child_x_parent_outer w10parent [] DEFAULT_VIEWPORT (some 0) (some 0) w10node hn
      w10childNode hmem⟩

/-- C8 witness: the case theorem applied at `"12px"`, `"2em"`, `"3rem"`,
`"50%"`, `""`, missing input, `"42"`, `"abc"` and the NaN input `"px"`. -/
theorem parsePixelValue_cases_witness :
    parsePixelValue (some "12px") = some 12 ∧
    parsePixelValue (some "2em") = some (2 * 16) ∧
    parsePixelValue (some "3rem") = some (3 * 16) ∧
    parsePixelValue (some "50%") = some 0 ∧
    parsePixelValue (some "") = some 0 ∧
    parsePixelValue none = some 0 ∧
    parsePixelValue (some "42") = some 42 ∧
    parsePixelValue (some "abc") = some 0 ∧
    parsePixelValue (some "px") = none := by
  obtain ⟨h1, h2, h3, h4, h5, h6, h7, h8, h9⟩ := parsePixelValue_cases
  refine ⟨h1 "12px" 12 (by decide) ?_ (by decide),
    h2 "2em" 2 (by decide) (by decide) ?_ (by decide),
    h3 "3rem" 3 (by decide) (by decide) ?_ (by decide),
    h4 "50%" (by decide) (by decide) (by decide) (by decide),
    h5, h6,
    h7 "42" 42 (by decide) (by decide) (by decide) ?_ (by decide),
    h8 "abc" (by decide) (by decide) (by decide) (by decide) (by decide),
    h9 "px" (by decide) (by decide) (by decide)⟩
  · norm_num +decide [jsParseFloat, strTrim, trimChars, takeDigits, digitsToNat, isWS,
      List.dropWhile, digitVal1, digitVal2]
  · norm_num +decide [jsParseFloat, strTrim, trimChars, takeDigits, digitsToNat, isWS,
      List.dropWhile, digitVal2]
  · norm_num +decide [jsParseFloat, strTrim, trimChars, takeDigits, digitsToNat, isWS,
      List.dropWhile, digitVal3]
  · norm_num +decide [jsParseFloat, strTrim, trimChars, takeDigits, digitsToNat, isWS,
      List.dropWhile, digitVal4, digitVal2]
